import Mathlib

/-!
Verification of the llm-context-management server core: the context store
(Redis backend), the turn validator with bounded retry, the request
pipeline mode dispatch, the asynchronous history/context updater, and the
FReD keygroup bootstrap. Definitions are shallow embeddings of the Go
source; external collaborators (Redis, gRPC/FReD, the Llama service) are
modelled as oracle environments.
-/

namespace LCM

/-! JSON documents, as stored in Redis and as request bodies. Numbers are
modelled as integers (all numeric fields of the embedded structs are Go
ints). -/

inductive Js where
  | null
  | bool (b : Bool)
  | num (n : Int)
  | str (s : String)
  | arr (xs : List Js)
  | obj (fields : List (String × Js))

/-- Lookup of a field in a JSON object, first occurrence. -/
def lookupField (fs : List (String × Js)) (k : String) : Option Js :=
  match fs with
  | [] => none
  | (k', v) :: rest => if k' = k then some v else lookupField rest k

/-! Embedding of internal/pkg/context_storage/redis_context_storage.go.
RedisContextData is the struct stored as JSON under key "ctx_" ++ sessionID. -/

structure RedisContextData where
  context : List Int
  turn : Int
deriving DecidableEq, Repr

/-- Marshalling of RedisContextData per its json field tags. -/
def marshalCtxData (d : RedisContextData) : Js :=
  .obj [("context", .arr (d.context.map Js.num)), ("turn", .num d.turn)]

/-- Decoding of a JSON array into an int slice, Go json semantics: every
element must be a number. -/
def decodeIntList : List Js → Except String (List Int)
  | [] => .ok []
  | .num n :: rest =>
    match decodeIntList rest with
    | .ok ns => .ok (n :: ns)
    | .error e => .error e
  | _ :: _ => .error "json: cannot unmarshal element into Go value of type int"

/-- Unmarshalling of RedisContextData, Go json semantics: a missing or null
field keeps the zero value, a wrongly typed field is an error, unknown
fields are ignored. -/
def unmarshalCtxData (j : Js) : Except String RedisContextData :=
  match j with
  | .obj fs =>
    match
      ((match lookupField fs "context" with
        | none => .ok []
        | some .null => .ok []
        | some (.arr l) => decodeIntList l
        | some _ => .error "json: cannot unmarshal into Go value of type []int") :
        Except String (List Int)) with
    | .error e => .error e
    | .ok ctx =>
      match lookupField fs "turn" with
      | none => .ok ⟨ctx, 0⟩
      | some .null => .ok ⟨ctx, 0⟩
      | some (.num n) => .ok ⟨ctx, n⟩
      | some _ => .error "json: cannot unmarshal into Go value of type int"
  | _ => .error "json: cannot unmarshal into Go value of type RedisContextData"

/-- Redis key space: a map from keys to stored JSON documents. The stored
value is modelled at the document level; the empty-string branch of the Go
reader corresponds to a key holding no valid document and is never produced
by the writer. -/
def RedisState : Type := String → Option Js

/-- Errors of the store contract: redis.Nil (a cache miss) versus any other
failure. -/
inductive StoreErr where
  | notFound
  | failure (msg : String)
deriving DecidableEq, Repr

/-- Key construction used by the tokenized-context operations. -/
def ctxKey (sessionID : String) : String := "ctx_" ++ sessionID

/-- GetTokenizedSessionContext: read the JSON document at "ctx_"++sessionID,
redis.Nil on a missing key, unmarshal error surfaced as a failure,
otherwise the (context, turn) pair. -/
def redisGetTokenized (st : RedisState) (sessionID : String) :
    Except StoreErr (List Int × Int) :=
  match st (ctxKey sessionID) with
  | none => .error .notFound
  | some js =>
    match unmarshalCtxData js with
    | .error e => .error (.failure e)
    | .ok d => .ok (d.context, d.turn)

/-- UpdateSessionContext: a nil token slice is replaced by the empty slice,
then the full (context, turn) document is written under "ctx_"++sessionID,
a complete overwrite. -/
def redisUpdateSessionContext (st : RedisState) (sessionID : String)
    (newFullTokenizedContext : Option (List Int)) (newTurn : Int) : RedisState :=
  let ctx := newFullTokenizedContext.getD []
  fun k => if k = ctxKey sessionID then some (marshalCtxData ⟨ctx, newTurn⟩) else st k

/-- IsNotFoundError: exactly the redis.Nil classification. -/
def redisIsNotFoundError (e : StoreErr) : Bool :=
  match e with
  | .notFound => true
  | .failure _ => false

theorem decodeIntList_map_num (xs : List Int) :
    decodeIntList (xs.map Js.num) = .ok xs := by
  induction xs with
  | nil => rfl
  | cons x xs ih => simp [decodeIntList, ih]

theorem unmarshal_marshal (d : RedisContextData) :
    unmarshalCtxData (marshalCtxData d) = .ok d := by
  simp [marshalCtxData, unmarshalCtxData, lookupField, decodeIntList_map_num]

/-- Claim C8: round-trip law of the context store. After a successful put of
(xs, t) for a session via UpdateSessionContext, the next
GetTokenizedSessionContext for that session returns exactly the same
ordered sequence xs with the same turn t. -/
theorem c8_roundtrip (st : RedisState) (sessionID : String) (xs : List Int) (t : Int) :
    redisGetTokenized (redisUpdateSessionContext st sessionID (some xs) t) sessionID
      = .ok (xs, t) := by
  simp [redisGetTokenized, redisUpdateSessionContext, unmarshal_marshal]

/-! Embedding of the request pipeline of src/unnamed/part_010, the server
iteration with per-session locking, turn validation with bounded retry, and
the asynchronous updater (the document spanning lines 187 to 779). -/

/-- Retry bound of the turn validator: maxTurnRetries = 5. -/
def maxTurnRetries : Nat := 5

/-- Result of one context read, as seen by the turn-validation loop. The
payload can be a nil slice with a nil error (Go allows both), a redis.Nil
style miss, or any other storage failure. -/
inductive ReadResult (α : Type) where
  | ok (payload : Option α) (turn : Int)
  | errNotFound
  | errOther
deriving DecidableEq, Repr

/-- Normalization performed at the top of each validation attempt: any
error, not-found or otherwise, and a nil payload all reset to the empty
payload with turn 0; a retrieved payload is kept with its stored turn. -/
def resolveRead {α : Type} (empty : α) : ReadResult α → α × Int
  | .ok none _ => (empty, 0)
  | .ok (some p) t => (p, t)
  | .errNotFound => (empty, 0)
  | .errOther => (empty, 0)

/-- Turn of a read after normalization. -/
def normTurn {α : Type} (empty : α) (r : ReadResult α) : Int :=
  (resolveRead empty r).2

/-- Outcome of the turn-validation loop. -/
inductive TVResult (α : Type) where
  | accepted (payload : α) (serverTurn : Int) (attempt : Nat)
  | conflict (expected received : Int)
deriving DecidableEq, Repr

/-- One pass of the validation loop, attempt index i with the given budget
of further attempts: read, normalize, accept when the declared turn equals
stored turn + 1, otherwise sleep and retry until the budget is exhausted,
then conflict with expected = stored turn + 1 and received = declared
turn. -/
def tvGo {α : Type} (reads : Nat → ReadResult α) (empty : α) (T : Int) :
    Nat → Nat → TVResult α
  | i, b =>
    let pr := resolveRead empty (reads i)
    if T = pr.2 + 1 then .accepted pr.1 pr.2 i
    else
      match b with
      | 0 => .conflict (pr.2 + 1) T
      | Nat.succ b' => tvGo reads empty T (i + 1) b'

/-- The turn-validation loop of handleCompletion, for i := 0; i <=
maxTurnRetries; i++. -/
def turnValidate {α : Type} (reads : Nat → ReadResult α) (empty : α) (T : Int) :
    TVResult α :=
  tvGo reads empty T 0 maxTurnRetries

theorem tvGo_accept_sound {α : Type} (reads : Nat → ReadResult α) (empty : α)
    (T : Int) :
    ∀ b i p t r, tvGo reads empty T i b = .accepted p t r →
      i ≤ r ∧ r ≤ i + b ∧ (p, t) = resolveRead empty (reads r) ∧ T = t + 1 ∧
        ∀ j, i ≤ j → j < r → T ≠ normTurn empty (reads j) + 1 := by
  intro b
  induction b with
  | zero =>
    intro i p t r h
    rw [tvGo] at h
    by_cases hc : T = (resolveRead empty (reads i)).2 + 1
    · simp only [hc, if_pos rfl] at h
      rcases h with ⟨rfl, rfl, rfl⟩
      refine ⟨le_refl _, by omega, rfl, hc, ?_⟩
      intro j h1 h2; omega
    · simp only [if_neg hc] at h
      exact TVResult.noConfusion h
  | succ b ih =>
    intro i p t r h
    rw [tvGo] at h
    by_cases hc : T = (resolveRead empty (reads i)).2 + 1
    · simp only [hc, if_pos rfl] at h
      rcases h with ⟨rfl, rfl, rfl⟩
      refine ⟨le_refl _, by omega, rfl, hc, ?_⟩
      intro j h1 h2; omega
    · simp only [if_neg hc] at h
      rcases ih (i + 1) p t r h with ⟨h1, h2, h3, h4, h5⟩
      refine ⟨by omega, by omega, h3, h4, ?_⟩
      intro j hj1 hj2
      rcases Nat.eq_or_lt_of_le hj1 with rfl | hj1'
      · exact hc
      · exact h5 j hj1' hj2

theorem tvGo_conflict {α : Type} (reads : Nat → ReadResult α) (empty : α)
    (T : Int) :
    ∀ b i, (∀ j, j ≤ b → T ≠ normTurn empty (reads (i + j)) + 1) →
      tvGo reads empty T i b = .conflict (normTurn empty (reads (i + b)) + 1) T := by
  intro b
  induction b with
  | zero =>
    intro i h
    have h0 := h 0 (le_refl _)
    simp only [Nat.add_zero, normTurn] at h0 ⊢
    rw [tvGo]
    simp only [if_neg h0]
  | succ b ih =>
    intro i h
    have h0 := h 0 (Nat.zero_le _)
    simp only [Nat.add_zero, normTurn] at h0
    rw [tvGo]
    simp only [if_neg h0]
    have hrec := ih (i + 1) (fun j hj => by
      have := h (j + 1) (by omega)
      simpa [Nat.add_assoc, Nat.add_comm 1 j] using this)
    rw [show i + 1 + b = i + (b + 1) from by omega] at hrec
    exact hrec

theorem tvGo_accept_exists {α : Type} (reads : Nat → ReadResult α) (empty : α)
    (T : Int) :
    ∀ b i, (∃ j, j ≤ b ∧ T = normTurn empty (reads (i + j)) + 1) →
      ∃ p t r, tvGo reads empty T i b = .accepted p t r := by
  intro b
  induction b with
  | zero =>
    intro i ⟨j, hj, hT⟩
    interval_cases j
    simp only [Nat.add_zero] at hT
    rw [tvGo]
    simp only [normTurn] at hT
    simp only [if_pos hT]
    exact ⟨_, _, _, rfl⟩
  | succ b ih =>
    intro i ⟨j, hj, hT⟩
    rw [tvGo]
    by_cases hc : T = (resolveRead empty (reads i)).2 + 1
    · simp only [if_pos hc]
      exact ⟨_, _, _, rfl⟩
    · simp only [if_neg hc]
      rcases Nat.eq_zero_or_pos j with rfl | hjpos
      · simp only [Nat.add_zero, normTurn] at hT
        exact absurd hT hc
      · refine ih (i + 1) ⟨j - 1, by omega, ?_⟩
        have : i + 1 + (j - 1) = i + j := by omega
        rw [this]
        exact hT

/-- Raw-mode payload entry: a (role, content) pair. -/
structure RawMessage where
  role : String
  content : String
deriving DecidableEq, Repr

/-- Observable effects of one request, in program order. The asynchronous
tail is appended after the synchronous part, which is the order enforced by
the per-session lock. -/
inductive Ev where
  | createSession
  | lockAcquire
  | lockRelease
  | ctxRead (attempt : Nat)
  | llamaCall
  | respond (status : Nat)
  | scheduleAsync
  | histAppend (role content : String)
  | putTok (payload : List Int) (turn : Int)
  | putRaw (payload : List RawMessage) (turn : Int)
  | tokenizeCall
  | advanceTurn
deriving DecidableEq, Repr

/-- The fields of CompletionRequest that the pipeline inspects, after
decoding. -/
structure CompletionReq where
  mode : String
  sessionID : String
  userID : String
  turn : Int
  prompt : String
  model : String
deriving DecidableEq, Repr

/-- Oracle environment for one request: outcomes of the external
collaborators. Context reads are indexed by attempt number, because the
stored value can change between the retries of the validation loop. -/
structure ServerEnv where
  createSessionOk : Bool
  rawReads : Nat → ReadResult (List RawMessage)
  tokReads : Nat → ReadResult (List Int)
  llama : Except Unit (Option String)
  tokenize : Except Unit (List Int)
  putRawOk : Bool
  putTokOk : Bool

/-- Raw-mode history constructed by the async updater: the prior messages,
the user message, and, when the assistant reply is non-empty, the assistant
message. -/
def newRawHistory (initial : List RawMessage) (prompt assistantMsg : String) :
    List RawMessage :=
  let withUser := initial ++ [⟨"user", prompt⟩]
  if assistantMsg = "" then withUser
  else withUser ++ [⟨"assistant", assistantMsg⟩]

/-- Effects of the body of updateHistoryAndContextAsync (before the deferred
unlock). Raw mode writes the extended history with the validated turn and
then advances the turn counter in the session manager; tokenized mode
returns early on an empty assistant message, tokenizes the rendered
exchange, and on success writes the extended token sequence with the
validated turn; client-side mode does nothing. -/
def asyncBody (env : ServerEnv) (mode prompt assistantMsg : String)
    (initialTok : List Int) (initialRaw : List RawMessage) (turn : Int) :
    List Ev :=
  if mode = "client-side" then []
  else if mode = "raw" then
    [.putRaw (newRawHistory initialRaw prompt assistantMsg) turn, .advanceTurn]
  else if mode = "tokenized" then
    if assistantMsg = "" then []
    else
      .tokenizeCall ::
      match env.tokenize with
      | .error _ => []
      | .ok newInteractionTokens => [.putTok (initialTok ++ newInteractionTokens) turn]
  else []

/-- The whole async task: its body, possibly cut short at an arbitrary point
by an unexpected failure inside the goroutine, followed by the deferred
recover-and-unlock block, which runs on every exit path. -/
def asyncUpdater (env : ServerEnv) (mode prompt assistantMsg : String)
    (initialTok : List Int) (initialRaw : List RawMessage) (turn : Int)
    (panicAt : Option Nat) : List Ev :=
  (match panicAt with
   | none => asyncBody env mode prompt assistantMsg initialTok initialRaw turn
   | some k => (asyncBody env mode prompt assistantMsg initialTok initialRaw turn).take k)
    ++ [.lockRelease]

/-- Persisted context entries for one session: the tokenized and the raw
(payload, turn) pairs. -/
structure CtxState where
  tok : Option (List Int × Int)
  raw : Option (List RawMessage × Int)
deriving DecidableEq, Repr

/-- Effect of one event on the persisted state: a put overwrites the full
entry when the backend write succeeds and leaves it unchanged when it
fails; no other event touches the store. -/
def applyEv (env : ServerEnv) (s : CtxState) : Ev → CtxState
  | .putTok p t => if env.putTokOk then { s with tok := some (p, t) } else s
  | .putRaw p t => if env.putRawOk then { s with raw := some (p, t) } else s
  | _ => s

def applyEvs (env : ServerEnv) (s : CtxState) (evs : List Ev) : CtxState :=
  evs.foldl (applyEv env) s

/-- Context-read events of the validation loop: one per attempt, attempt r
succeeding means reads 0..r happened, a conflict means all
maxTurnRetries + 1 reads happened. -/
def readEvs {α : Type} (v : TVResult α) : List Ev :=
  (List.range (match v with
    | .accepted _ _ r => r + 1
    | .conflict _ _ => maxTurnRetries + 1)).map Ev.ctxRead

/-- Events before the mode dispatch: session creation when no id was
supplied, then acquisition of the per-session lock. -/
def preEvents (req : CompletionReq) : List Ev :=
  (if req.sessionID = "" then [Ev.createSession] else []) ++ [Ev.lockAcquire]

/-- Embedding of handleCompletion: session resolution, lock acquisition,
turn-number gate, mode dispatch with turn-validated context retrieval, the
inference call, response, and the asynchronous tail. -/
def handle (req : CompletionReq) (env : ServerEnv) (panicAt : Option Nat) :
    List Ev :=
  if req.sessionID = "" ∧ env.createSessionOk = false then [.respond 500]
  else if req.turn < 1 then preEvents req ++ [.respond 400, .lockRelease]
  else if req.mode = "raw" then
    preEvents req ++ readEvs (turnValidate env.rawReads ([] : List RawMessage) req.turn) ++
    match turnValidate env.rawReads ([] : List RawMessage) req.turn with
    | .conflict _ _ => [.respond 409, .lockRelease]
    | .accepted payload _ _ =>
      .llamaCall ::
      match env.llama with
      | .error _ => [.respond 500, .lockRelease]
      | .ok content =>
        [.scheduleAsync, .respond 200] ++
        asyncUpdater env req.mode req.prompt (content.getD "") [] payload req.turn panicAt
  else if req.mode = "tokenized" then
    preEvents req ++ readEvs (turnValidate env.tokReads ([] : List Int) req.turn) ++
    match turnValidate env.tokReads ([] : List Int) req.turn with
    | .conflict _ _ => [.respond 409, .lockRelease]
    | .accepted payload _ _ =>
      .llamaCall ::
      match env.llama with
      | .error _ => [.respond 500, .lockRelease]
      | .ok content =>
        [.scheduleAsync, .respond 200] ++
        asyncUpdater env req.mode req.prompt (content.getD "") payload [] req.turn panicAt
  else if req.mode = "client-side" then
    preEvents req ++ [.llamaCall] ++
    match env.llama with
    | .error _ => [.respond 500, .lockRelease]
    | .ok _ => [.lockRelease, .respond 200]
  else preEvents req ++ [.respond 400, .lockRelease]

/-! Decoding of the request body, embedding CompletionRequest.UnmarshalJSON:
the typed unmarshal of the known fields, then the check that the disallowed
context key is absent, then the removal of the known keys to form the
forwarded parameter bag. -/

/-- Go json: a missing or null field keeps the zero value, a wrongly typed
field is an error. -/
def getStrField (fs : List (String × Js)) (k : String) : Except String String :=
  match lookupField fs k with
  | none => .ok ""
  | some .null => .ok ""
  | some (.str s) => .ok s
  | some _ => .error "json: cannot unmarshal into Go value of type string"

def getIntField (fs : List (String × Js)) (k : String) : Except String Int :=
  match lookupField fs k with
  | none => .ok 0
  | some .null => .ok 0
  | some (.num n) => .ok n
  | some _ => .error "json: cannot unmarshal into Go value of type int"

def getBoolField (fs : List (String × Js)) (k : String) : Except String Bool :=
  match lookupField fs k with
  | none => .ok false
  | some .null => .ok false
  | some (.bool b) => .ok b
  | some _ => .error "json: cannot unmarshal into Go value of type bool"

/-- The typed fields of CompletionRequest. -/
structure KnownFields where
  mode : String
  sessionID : String
  userID : String
  turn : Int
  prompt : String
  model : String
  temperature : Int
  seed : Int
  stream : Bool

/-- The first json.Unmarshal of UnmarshalJSON, into the alias struct. -/
def decodeKnown (fs : List (String × Js)) : Except String KnownFields := do
  let mode ← getStrField fs "mode"
  let sessionID ← getStrField fs "session_id"
  let userID ← getStrField fs "user_id"
  let turn ← getIntField fs "turn"
  let prompt ← getStrField fs "prompt"
  let model ← getStrField fs "model"
  let temperature ← getIntField fs "temperature"
  let seed ← getIntField fs "seed"
  let stream ← getBoolField fs "stream"
  return ⟨mode, sessionID, userID, turn, prompt, model, temperature, seed, stream⟩

/-- Keys removed from the parameter bag after the context check. -/
def knownKeys : List String :=
  ["mode", "session_id", "user_id", "turn", "prompt", "model", "temperature",
   "seed", "stream"]

/-- CompletionRequest.UnmarshalJSON: unmarshal the known fields, reject any
body whose top level holds the disallowed context key, and keep the
remaining fields as the forwarded bag. -/
def decodeCompletionRequest (fs : List (String × Js)) :
    Except String (CompletionReq × List (String × Js)) :=
  match decodeKnown fs with
  | .error e => .error e
  | .ok k =>
    if (lookupField fs "context").isSome then
      .error "the context field is not allowed in the request body"
    else
      .ok (⟨k.mode, k.sessionID, k.userID, k.turn, k.prompt, k.model⟩,
        fs.filter (fun p => decide (p.1 ∉ knownKeys)))

/-- The handler up to and including body decoding: a decode failure is
rejected with 400 before session resolution, locking, or any store
access. -/
def handleHTTP (fs : List (String × Js)) (env : ServerEnv) (panicAt : Option Nat) :
    List Ev :=
  match decodeCompletionRequest fs with
  | .error _ => [.respond 400]
  | .ok (req, _) => handle req env panicAt

/-! Embedding of the distributed-backend bootstrap, initializeKeygroup in
src/unnamed/part_009 (lines 426 to 598): idempotent creation of the FReD
keygroup, permission grants for the service identity, and replication of
the keygroup to every other known storage node. -/

/-- gRPC status codes distinguished by the bootstrap logic. -/
inductive GCode where
  | notFound
  | alreadyExists
  | unknownCode
  | otherCode
deriving DecidableEq, Repr

structure GErr where
  code : GCode
  msg : String
deriving DecidableEq, Repr

structure KgNode where
  nodeId : String
  host : String
deriving DecidableEq, Repr

structure KgInfo where
  replica : List KgNode
deriving DecidableEq, Repr

inductive UserRole where
  | readKeygroup
  | writeKeygroup
  | configureReplica
deriving DecidableEq, Repr

/-- Oracle environment for one bootstrap run: the outcome of each gRPC call
initializeKeygroup can make. -/
structure FredEnv where
  getKeygroupInfo : Except GErr KgInfo
  createKeygroup : Except GErr Unit
  refreshInfo : Except GErr KgInfo
  addUser : UserRole → Except GErr Unit
  getAllReplica : Except GErr (List KgNode)
  addReplica : String → Except GErr Unit

/-- Calls attempted during a bootstrap run. -/
inductive FEv where
  | calledGetInfo
  | calledCreate
  | calledRefresh
  | calledAddUser (r : UserRole)
  | calledGetAll
  | calledAddReplica (nodeId : String)
deriving DecidableEq, Repr

/-- strings.Contains, for the FReD existence-check workaround. -/
def strContains (s pat : String) : Bool := (s.splitOn pat).length > 1

/-- Classification of the existence-check error: a grpc NotFound, or the
FReD-specific Unknown code whose message mentions the missing replica. -/
def kgMissingErr (e : GErr) : Bool :=
  e.code = .notFound ||
    (e.code = .unknownCode && strContains e.msg "cannot get replica for keygroup")

/-- Phase one of initializeKeygroup: the existence check and, when the
keygroup seems absent, its creation, tolerating a concurrent creation.
Returns the keygroup info available for the replication phase (none when a
refresh failed) or the propagated startup error. -/
def kgEnsureExists (env : FredEnv) : Except GErr (Option KgInfo) × List FEv :=
  match env.getKeygroupInfo with
  | .ok info => (.ok (some info), [.calledGetInfo])
  | .error e =>
    if kgMissingErr e then
      match env.createKeygroup with
      | .error ce =>
        if ce.code = .alreadyExists then
          match env.refreshInfo with
          | .error _ => (.ok none, [.calledGetInfo, .calledCreate, .calledRefresh])
          | .ok ri => (.ok (some ri), [.calledGetInfo, .calledCreate, .calledRefresh])
        else (.error ce, [.calledGetInfo, .calledCreate])
      | .ok _ =>
        match env.refreshInfo with
        | .error _ => (.ok none, [.calledGetInfo, .calledCreate, .calledRefresh])
        | .ok ri => (.ok (some ri), [.calledGetInfo, .calledCreate, .calledRefresh])
    else (.error e, [.calledGetInfo])

/-- The three permission grants; failures are logged and ignored. -/
def kgAddUserEvs : List FEv :=
  [.calledAddUser .readKeygroup, .calledAddUser .writeKeygroup,
   .calledAddUser .configureReplica]

/-- Self NodeId resolution: by host among all known nodes, falling back to
the keygroup replica list. -/
def kgSelfNodeId (selfAddr : String) (allNodes : List KgNode) (info : KgInfo) :
    Option String :=
  match (allNodes.find? (fun n => n.host = selfAddr)).map KgNode.nodeId with
  | some nid => some nid
  | none => (info.replica.find? (fun n => n.host = selfAddr)).map KgNode.nodeId

/-- Replication phase: every known node other than self that is not already
a replica of the keygroup gets an AddReplica attempt; failures, AlreadyExists
or otherwise, are logged and ignored. -/
def kgReplicateEvs (selfAddr : String) (allNodes : List KgNode) (info : KgInfo) :
    List FEv :=
  let selfId := kgSelfNodeId selfAddr allNodes info
  let current := info.replica.map KgNode.nodeId
  (allNodes.filter (fun n =>
    decide (selfId ≠ some n.nodeId) && decide (n.nodeId ∉ current))).map
    (fun n => .calledAddReplica n.nodeId)

/-- initializeKeygroup: ensure the keygroup exists, grant the service
identity its permissions, and replicate the keygroup to the other nodes.
Only an existence-check or creation failure is propagated; permission and
replication failures are logged and dropped, and a failed info refresh or
GetAllReplica just skips the replication phase. -/
def initializeKeygroup (env : FredEnv) (selfAddr : String) :
    Except GErr Unit × List FEv :=
  match kgEnsureExists env with
  | (.error e, tr) => (.error e, tr)
  | (.ok info?, tr) =>
    let tr := tr ++ kgAddUserEvs
    match info? with
    | none => (.ok (), tr)
    | some info =>
      match env.getAllReplica with
      | .error _ => (.ok (), tr ++ [.calledGetAll])
      | .ok allNodes =>
        (.ok (), tr ++ [.calledGetAll] ++ kgReplicateEvs selfAddr allNodes info)

/-! Claim theorems. -/

/-- Claim C1: turn-validator contract. In raw or tokenized mode a declared
turn below 1 is rejected before any context-store read, with the lock
released and nothing persisted. For a turn of at least 1, each validation
attempt normalizes a not-found read to turn 0 with the empty payload,
acceptance happens exactly when some attempt within the initial try plus
maxTurnRetries retries sees stored turn + 1 equal to the declared turn, and
when every attempt mismatches the result is a conflict carrying
expected = stored turn + 1 and received = declared turn, the request is
rejected, the lock is released, and nothing is persisted. -/
theorem c1_turn_validator (req : CompletionReq) (env : ServerEnv) (pa : Option Nat)
    (hcs : req.sessionID = "" → env.createSessionOk = true)
    (hmode : req.mode = "raw" ∨ req.mode = "tokenized") :
    (req.turn < 1 →
      handle req env pa = preEvents req ++ [.respond 400, .lockRelease] ∧
      (∀ a, Ev.ctxRead a ∉ handle req env pa) ∧
      (∀ p t, Ev.putRaw p t ∉ handle req env pa) ∧
      (∀ p t, Ev.putTok p t ∉ handle req env pa) ∧
      Ev.lockRelease ∈ handle req env pa)
    ∧ (∀ (α : Type) (empty : α),
        resolveRead empty (.errNotFound : ReadResult α) = (empty, 0))
    ∧ (∀ (α : Type) (reads : Nat → ReadResult α) (empty : α) (p : α) (t : Int)
        (r : Nat), turnValidate reads empty req.turn = .accepted p t r →
          req.turn = t + 1 ∧ r ≤ maxTurnRetries ∧
          (p, t) = resolveRead empty (reads r) ∧
          ∀ j, j < r → req.turn ≠ normTurn empty (reads j) + 1)
    ∧ (∀ (α : Type) (reads : Nat → ReadResult α) (empty : α),
        (∀ i, i ≤ maxTurnRetries → req.turn ≠ normTurn empty (reads i) + 1) →
        turnValidate reads empty req.turn =
          .conflict (normTurn empty (reads maxTurnRetries) + 1) req.turn)
    ∧ (∀ (α : Type) (reads : Nat → ReadResult α) (empty : α),
        (∃ i, i ≤ maxTurnRetries ∧ req.turn = normTurn empty (reads i) + 1) →
        ∃ p t r, turnValidate reads empty req.turn = .accepted p t r)
    ∧ (1 ≤ req.turn →
        (∀ i, i ≤ maxTurnRetries →
          req.turn ≠ normTurn ([] : List RawMessage) (env.rawReads i) + 1) →
        (∀ i, i ≤ maxTurnRetries →
          req.turn ≠ normTurn ([] : List Int) (env.tokReads i) + 1) →
        handle req env pa = preEvents req ++
          (List.range (maxTurnRetries + 1)).map Ev.ctxRead ++
          [.respond 409, .lockRelease] ∧
        (∀ p t, Ev.putRaw p t ∉ handle req env pa) ∧
        (∀ p t, Ev.putTok p t ∉ handle req env pa) ∧
        Ev.lockRelease ∈ handle req env pa) := by
  have hns : ¬(req.sessionID = "" ∧ env.createSessionOk = false) := by
    rintro ⟨h1, h2⟩
    rw [hcs h1] at h2
    exact Bool.noConfusion h2
  refine ⟨?_, ?_, ?_, ?_, ?_, ?_⟩
  · intro hlt
    have htrace : handle req env pa = preEvents req ++ [.respond 400, .lockRelease] := by
      simp only [handle, if_neg hns, if_pos hlt]
    refine ⟨htrace, ?_, ?_, ?_, ?_⟩
    · intro a; rw [htrace]; simp [preEvents]
    · intro p t; rw [htrace]; simp [preEvents]
    · intro p t; rw [htrace]; simp [preEvents]
    · rw [htrace]; simp
  · intro α empty; rfl
  · intro α reads empty p t r h
    have := tvGo_accept_sound reads empty req.turn maxTurnRetries 0 p t r h
    rcases this with ⟨_, h2, h3, h4, h5⟩
    exact ⟨h4, by omega, h3, fun j hj => h5 j (Nat.zero_le _) hj⟩
  · intro α reads empty h
    have := tvGo_conflict reads empty req.turn maxTurnRetries 0
      (fun j hj => by simpa using h j hj)
    simpa using this
  · intro α reads empty ⟨i, hi, hT⟩
    exact tvGo_accept_exists reads empty req.turn maxTurnRetries 0
      ⟨i, hi, by simpa using hT⟩
  · intro hge hraw htok
    have hnlt : ¬ req.turn < 1 := by omega
    have hvr := tvGo_conflict env.rawReads ([] : List RawMessage) req.turn
      maxTurnRetries 0 (fun j hj => by simpa using hraw j hj)
    have hvt := tvGo_conflict env.tokReads ([] : List Int) req.turn
      maxTurnRetries 0 (fun j hj => by simpa using htok j hj)
    simp only [Nat.zero_add] at hvr hvt
    have htrace : handle req env pa = preEvents req ++
        (List.range (maxTurnRetries + 1)).map Ev.ctxRead ++
        [.respond 409, .lockRelease] := by
      rcases hmode with hm | hm
      · simp only [handle, if_neg hns, if_neg hnlt, hm, turnValidate, hvr]
        simp [readEvs]
      · have hm' : ¬ req.mode = "raw" := by rw [hm]; decide
        simp only [handle, if_neg hns, if_neg hnlt, hm, if_neg, turnValidate, hvt]
        simp [readEvs]
    refine ⟨htrace, ?_, ?_, ?_⟩
    · intro p t; rw [htrace]; simp [preEvents]
    · intro p t; rw [htrace]; simp [preEvents]
    · rw [htrace]; simp

/-- Shape of the async-updater body: it only ever produces store writes, the
turn-counter advance, and the tokenize call. -/
theorem asyncBody_events (env : ServerEnv) (mode p a : String) (tk : List Int)
    (rm : List RawMessage) (T : Int) :
    ∀ e ∈ asyncBody env mode p a tk rm T,
      (∃ pl t, e = .putRaw pl t) ∨ e = .advanceTurn ∨ e = .tokenizeCall ∨
        ∃ pl t, e = .putTok pl t := by
  intro e he
  unfold asyncBody at he
  split at he
  · simp at he
  · split at he
    · simp only [List.mem_cons, List.mem_singleton, List.not_mem_nil, or_false] at he
      rcases he with rfl | rfl
      · exact Or.inl ⟨_, _, rfl⟩
      · exact Or.inr (Or.inl rfl)
    · split at he
      · split at he
        · simp at he
        · simp only [List.mem_cons] at he
          rcases he with rfl | he

          · exact Or.inr (Or.inr (Or.inl rfl))
          · split at he
            · simp at he
            · simp only [List.mem_singleton] at he
              subst he
              exact Or.inr (Or.inr (Or.inr ⟨_, _, rfl⟩))
      · simp at he

theorem lockRelease_not_mem_asyncBody (env : ServerEnv) (mode p a : String)
    (tk : List Int) (rm : List RawMessage) (T : Int) :
    Ev.lockRelease ∉ asyncBody env mode p a tk rm T := by
  intro h
  rcases asyncBody_events env mode p a tk rm T _ h with ⟨_, _, h'⟩ | h' | h' | ⟨_, _, h'⟩ <;>
    exact Ev.noConfusion h'

theorem respond_not_mem_asyncUpdater (env : ServerEnv) (mode p a : String)
    (tk : List Int) (rm : List RawMessage) (T : Int) (pa : Option Nat) (n : Nat) :
    Ev.respond n ∉ asyncUpdater env mode p a tk rm T pa := by
  intro h
  unfold asyncUpdater at h
  rw [List.mem_append] at h
  rcases h with h | h
  · have hb : Ev.respond n ∈ asyncBody env mode p a tk rm T := by
      rcases pa with _ | k
      · exact h
      · exact List.take_subset k _ h
    rcases asyncBody_events env mode p a tk rm T _ hb with ⟨_, _, h'⟩ | h' | h' | ⟨_, _, h'⟩ <;>
      exact Ev.noConfusion h'
  · simp at h

/-- Claim C6: on every execution path of the async updater — normal
completion, the empty-assistant early return, tokenization or store-write
failure, and an unexpected panic cutting the body short at any point — the
session lock handed to the task is released exactly once. -/
theorem c6_lock_released_once (env : ServerEnv) (mode p a : String)
    (tk : List Int) (rm : List RawMessage) (T : Int) (pa : Option Nat) :
    (asyncUpdater env mode p a tk rm T pa).count Ev.lockRelease = 1 := by
  unfold asyncUpdater
  rw [List.count_append]
  have hz : ∀ l : List Ev, Ev.lockRelease ∉ l → l.count Ev.lockRelease = 0 :=
    fun l h => List.count_eq_zero.mpr h
  have hb := lockRelease_not_mem_asyncBody env mode p a tk rm T
  rcases pa with _ | k
  · rw [hz _ hb]; rfl
  · rw [hz _ (fun h => hb (List.take_subset k _ h))]; rfl

/-- Claim C2 (amended): raw-mode commit. For a successful raw-mode request
at validated turn T with prompt p and non-empty assistant reply a, the
async updater constructs the new payload as the prior payload followed by
the (user, p) and (assistant, a) entries, writes it via put with turn T,
and then advances the session turn counter in the history collaborator as
a separate best-effort step; when the put succeeds the persisted raw pair
becomes exactly that payload with turn T, and for a fresh session at
turn 1 it is exactly the two-entry list with stored turn 1; with an empty
assistant reply only the user entry is appended. In this iteration the raw
history lives in the context store itself; no messages are appended to the
history collaborator. -/
theorem c2_raw_commit (env : ServerEnv) (p a : String) (prior : List RawMessage)
    (tk : List Int) (T : Int) (s : CtxState) (ha : a ≠ "")
    (hput : env.putRawOk = true) :
    asyncBody env "raw" p a tk prior T =
      [.putRaw (prior ++ [⟨"user", p⟩, ⟨"assistant", a⟩]) T, .advanceTurn] ∧
    applyEvs env s (asyncUpdater env "raw" p a tk prior T none) =
      { s with raw := some (prior ++ [⟨"user", p⟩, ⟨"assistant", a⟩], T) } ∧
    (prior = [] → T = 1 →
      (applyEvs env s (asyncUpdater env "raw" p a tk prior T none)).raw =
        some ([⟨"user", p⟩, ⟨"assistant", a⟩], 1)) ∧
    asyncBody env "raw" p "" tk prior T =
      [.putRaw (prior ++ [⟨"user", p⟩]) T, .advanceTurn] := by
  have hbody : asyncBody env "raw" p a tk prior T =
      [.putRaw (prior ++ [⟨"user", p⟩, ⟨"assistant", a⟩]) T, .advanceTurn] := by
    simp [asyncBody, newRawHistory, ha]
  have happ : applyEvs env s (asyncUpdater env "raw" p a tk prior T none) =
      { s with raw := some (prior ++ [⟨"user", p⟩, ⟨"assistant", a⟩], T) } := by
    simp [asyncUpdater, hbody, applyEvs, applyEv, hput]
  refine ⟨hbody, happ, ?_, ?_⟩
  · rintro rfl rfl
    rw [happ]
    simp
  · simp [asyncBody, newRawHistory]

/-- Claim C5: async-commit atomicity in tokenized mode. When tokenizing the
rendered exchange fails, the body stops after the tokenize call, no put of
either representation is attempted, and the persisted (payload, turn) state
is left exactly at its prior value, on the normal path and on any
panic-interrupted path. -/
theorem c5_tokenize_failure_no_put (env : ServerEnv) (p a : String)
    (tk : List Int) (rm : List RawMessage) (T : Int) (s : CtxState)
    (pa : Option Nat) (ha : a ≠ "") (htk : env.tokenize = .error ()) :
    asyncBody env "tokenized" p a tk rm T = [.tokenizeCall] ∧
    (∀ pl t, Ev.putTok pl t ∉ asyncUpdater env "tokenized" p a tk rm T pa) ∧
    (∀ pl t, Ev.putRaw pl t ∉ asyncUpdater env "tokenized" p a tk rm T pa) ∧
    applyEvs env s (asyncUpdater env "tokenized" p a tk rm T pa) = s := by
  have hbody : asyncBody env "tokenized" p a tk rm T = [.tokenizeCall] := by
    simp [asyncBody, ha, htk]
  have hup : ∀ e ∈ asyncUpdater env "tokenized" p a tk rm T pa,
      e = .tokenizeCall ∨ e = .lockRelease := by
    intro e he
    unfold asyncUpdater at he
    rw [hbody] at he
    rcases pa with _ | k
    · simp at he
      rcases he with rfl | rfl
      · exact Or.inl rfl
      · exact Or.inr rfl
    · rw [List.mem_append] at he
      rcases he with he | he
      · exact Or.inl ((List.take_subset k _) he |> List.mem_singleton.mp)
      · exact Or.inr (List.mem_singleton.mp he)
  refine ⟨hbody, ?_, ?_, ?_⟩
  · intro pl t h
    rcases hup _ h with h' | h' <;> exact Ev.noConfusion h'
  · intro pl t h
    rcases hup _ h with h' | h' <;> exact Ev.noConfusion h'
  · unfold asyncUpdater
    rw [hbody]
    rcases pa with _ | k
    · simp [applyEvs, applyEv]
    · rcases k with _ | k
      · simp [applyEvs, applyEv]
      · simp [applyEvs, applyEv, List.take_nil]

/-- Claim C3 (amended): client-side pass-through. A client-side request
never reads or writes the context store or the history log and never
invokes the async updater; however the request does acquire the per-session
lock before dispatch and holds it across the inference call, releasing it
only once the call returns (just before the response is written), so
concurrent client-side requests for the same session are serialized by the
lock during their synchronous processing. -/
theorem c3_client_side_frame (req : CompletionReq) (env : ServerEnv)
    (pa : Option Nat) (hm : req.mode = "client-side") :
    (∀ a, Ev.ctxRead a ∉ handle req env pa) ∧
    (∀ pl t, Ev.putTok pl t ∉ handle req env pa) ∧
    (∀ pl t, Ev.putRaw pl t ∉ handle req env pa) ∧
    (∀ r c, Ev.histAppend r c ∉ handle req env pa) ∧
    Ev.tokenizeCall ∉ handle req env pa ∧
    Ev.advanceTurn ∉ handle req env pa ∧
    Ev.scheduleAsync ∉ handle req env pa ∧
    (req.sessionID ≠ "" → 1 ≤ req.turn → ∀ c, env.llama = .ok c →
      handle req env pa = [.lockAcquire, .llamaCall, .lockRelease, .respond 200]) := by
  have key : handle req env pa = [.respond 500] ∨
      handle req env pa = preEvents req ++ [.respond 400, .lockRelease] ∨
      handle req env pa = preEvents req ++ [.llamaCall, .respond 500, .lockRelease] ∨
      handle req env pa = preEvents req ++ [.llamaCall, .lockRelease, .respond 200] := by
    by_cases h1 : req.sessionID = "" ∧ env.createSessionOk = false
    · left; simp [handle, h1]
    · right
      by_cases h2 : req.turn < 1
      · left; simp [handle, h1, h2]
      · right
        cases hl : env.llama with
        | error e => left; simp [handle, h1, h2, hm, hl]
        | ok c => right; simp [handle, h1, h2, hm, hl]
  refine ⟨?_, ?_, ?_, ?_, ?_, ?_, ?_, ?_⟩
  · intro a; rcases key with h | h | h | h <;> rw [h] <;> simp [preEvents]
  · intro pl t; rcases key with h | h | h | h <;> rw [h] <;> simp [preEvents]
  · intro pl t; rcases key with h | h | h | h <;> rw [h] <;> simp [preEvents]
  · intro r c; rcases key with h | h | h | h <;> rw [h] <;> simp [preEvents]
  · rcases key with h | h | h | h <;> rw [h] <;> simp [preEvents]
  · rcases key with h | h | h | h <;> rw [h] <;> simp [preEvents]
  · rcases key with h | h | h | h <;> rw [h] <;> simp [preEvents]
  · intro hsid hge c hl
    have h1 : ¬(req.sessionID = "" ∧ env.createSessionOk = false) := by
      rintro ⟨hx, _⟩; exact hsid hx
    have h2 : ¬ req.turn < 1 := by omega
    simp [handle, h1, h2, hm, hl, preEvents, hsid]

/-- Events before the mode dispatch are only the session creation and the
lock acquisition. -/
theorem preEvents_sub (req : CompletionReq) :
    ∀ e ∈ preEvents req, e = Ev.createSession ∨ e = Ev.lockAcquire := by
  intro e he
  by_cases hs : req.sessionID = ""
  · simp [preEvents, hs] at he
    exact he
  · simp [preEvents, hs] at he
    exact Or.inr he

/-- Responses inside a successful mode-branch trace (the pre events, the
single context read, the inference call, the 200 response and the
asynchronous tail) are only the status 200. -/
theorem respond_eq_200_of_mem_success (req : CompletionReq) (env : ServerEnv)
    (mode p a : String) (tk : List Int) (rm : List RawMessage) (T : Int)
    (pa : Option Nat) (n : Nat)
    (hn : Ev.respond n ∈ preEvents req ++ [Ev.ctxRead 0] ++
      Ev.llamaCall :: ([Ev.scheduleAsync, Ev.respond 200] ++
        asyncUpdater env mode p a tk rm T pa)) : n = 200 := by
  rcases List.mem_append.mp hn with hn' | hn'
  · rcases List.mem_append.mp hn' with hp | hp
    · rcases preEvents_sub req _ hp with h' | h' <;> exact Ev.noConfusion h'
    · simp at hp
  · rcases List.mem_cons.mp hn' with h' | h'
    · exact Ev.noConfusion h'
    · rcases List.mem_append.mp h' with h'' | h''
      · rcases List.mem_cons.mp h'' with h3 | h3
        · exact Ev.noConfusion h3
        · rcases List.mem_singleton.mp h3 with h4
          injection h4
      · exact absurd h'' (respond_not_mem_asyncUpdater env mode p a tk rm T pa n)

/-- Claim C4 (amended): in raw and in tokenized mode alike, a synchronous
context read that fails with an error not classified as NotFound is logged
and treated exactly like a NotFound result — empty payload, turn 0, a
fresh start — and the request proceeds; in particular, with a declared
turn of 1 and every read failing with a non-NotFound error, the validator
accepts on the first attempt with the empty payload and the pipeline goes
on to call the inference capability, never surfacing a server error from
the read path. -/
theorem c4_read_error_fresh_start {α : Type} (empty : α) (req : CompletionReq)
    (env : ServerEnv) (pa : Option Nat) (c : Option String)
    (hcs : req.sessionID = "" → env.createSessionOk = true)
    (hmode : req.mode = "raw" ∨ req.mode = "tokenized") (ht : req.turn = 1)
    (hreadsRaw : ∀ i, env.rawReads i = .errOther)
    (hreadsTok : ∀ i, env.tokReads i = .errOther)
    (hl : env.llama = .ok c) :
    resolveRead empty (.errOther : ReadResult α) = (empty, 0) ∧
    resolveRead empty (.errNotFound : ReadResult α) = (empty, 0) ∧
    turnValidate env.rawReads ([] : List RawMessage) req.turn = .accepted [] 0 0 ∧
    turnValidate env.tokReads ([] : List Int) req.turn = .accepted [] 0 0 ∧
    Ev.llamaCall ∈ handle req env pa ∧
    (∀ n, Ev.respond n ∈ handle req env pa → n = 200) := by
  have hns : ¬(req.sessionID = "" ∧ env.createSessionOk = false) := by
    rintro ⟨hx1, hx2⟩
    rw [hcs hx1] at hx2
    exact Bool.noConfusion hx2
  have h2 : ¬ req.turn < 1 := by omega
  have hvr : turnValidate env.rawReads ([] : List RawMessage) req.turn =
      .accepted [] 0 0 := by
    rw [turnValidate, ht, tvGo.eq_def]
    simp only [hreadsRaw]
    rfl
  have hvt : turnValidate env.tokReads ([] : List Int) req.turn =
      .accepted [] 0 0 := by
    rw [turnValidate, ht, tvGo.eq_def]
    simp only [hreadsTok]
    rfl
  rcases hmode with hm | hm
  · have htrace : handle req env pa = preEvents req ++ [Ev.ctxRead 0] ++
        Ev.llamaCall :: ([Ev.scheduleAsync, Ev.respond 200] ++
          asyncUpdater env "raw" req.prompt (c.getD "") [] [] req.turn pa) := by
      unfold handle
      rw [if_neg hns, if_neg h2, hm, if_pos rfl, hvr, hl]
      rfl
    refine ⟨rfl, rfl, hvr, hvt, ?_, ?_⟩
    · rw [htrace]; simp
    · intro n hn
      rw [htrace] at hn
      exact respond_eq_200_of_mem_success req env "raw" req.prompt (c.getD "")
        [] [] req.turn pa n hn
  · have htrace : handle req env pa = preEvents req ++ [Ev.ctxRead 0] ++
        Ev.llamaCall :: ([Ev.scheduleAsync, Ev.respond 200] ++
          asyncUpdater env "tokenized" req.prompt (c.getD "") [] [] req.turn pa) := by
      unfold handle
      rw [if_neg hns, if_neg h2, hm, if_neg (by decide), if_pos rfl, hvt, hl]
      rfl
    refine ⟨rfl, rfl, hvr, hvt, ?_, ?_⟩
    · rw [htrace]; simp
    · intro n hn
      rw [htrace] at hn
      exact respond_eq_200_of_mem_success req env "tokenized" req.prompt (c.getD "")
        [] [] req.turn pa n hn

/-- Claim C7 (amended): distributed-backend bootstrap. When the keygroup
already exists (the existence check succeeds) the bootstrap completes
without error, in particular when every known node is already a replica and
the permission grants report already-exists; an existence-check failure
other than NotFound or the FReD unknown-code replica message is propagated
as a startup error, as is a creation failure other than AlreadyExists;
permission-grant and replica-addition failures are logged and ignored, not
propagated. -/
theorem c7_bootstrap (env : FredEnv) (selfAddr : String) :
    (∀ info, env.getKeygroupInfo = .ok info →
      (initializeKeygroup env selfAddr).1 = .ok ()) ∧
    (∀ e, env.getKeygroupInfo = .error e → kgMissingErr e = false →
      (initializeKeygroup env selfAddr).1 = .error e) ∧
    (∀ e ce, env.getKeygroupInfo = .error e → kgMissingErr e = true →
      env.createKeygroup = .error ce → ce.code ≠ .alreadyExists →
      (initializeKeygroup env selfAddr).1 = .error ce) := by
  refine ⟨?_, ?_, ?_⟩
  · intro info h
    cases hga : env.getAllReplica with
    | error e => simp [initializeKeygroup, kgEnsureExists, h, hga]
    | ok nodes => simp [initializeKeygroup, kgEnsureExists, h, hga]
  · intro e h hmiss
    simp [initializeKeygroup, kgEnsureExists, h, hmiss]
  · intro e ce h hmiss hce hne
    simp [initializeKeygroup, kgEnsureExists, h, hmiss, hce, hne]

/-- Claim C9: a request body whose top level holds a context key fails to
decode, the request is rejected with a validation error before session
resolution, locking, or any store access, and such a request never reaches
the inference capability. -/
theorem c9_context_rejected (fs : List (String × Js)) (env : ServerEnv)
    (pa : Option Nat) (h : (lookupField fs "context").isSome = true) :
    (∃ e, decodeCompletionRequest fs = .error e) ∧
    handleHTTP fs env pa = [.respond 400] ∧
    Ev.llamaCall ∉ handleHTTP fs env pa ∧
    Ev.lockAcquire ∉ handleHTTP fs env pa ∧
    Ev.createSession ∉ handleHTTP fs env pa ∧
    (∀ a, Ev.ctxRead a ∉ handleHTTP fs env pa) ∧
    (∀ pl t, Ev.putTok pl t ∉ handleHTTP fs env pa) ∧
    (∀ pl t, Ev.putRaw pl t ∉ handleHTTP fs env pa) := by
  have hdec : ∃ e, decodeCompletionRequest fs = .error e := by
    unfold decodeCompletionRequest
    cases hk : decodeKnown fs with
    | error e => exact ⟨e, rfl⟩
    | ok k => simp [h]
  obtain ⟨e, he⟩ := hdec
  have ht : handleHTTP fs env pa = [.respond 400] := by
    simp [handleHTTP, he]
  refine ⟨⟨e, he⟩, ht, ?_, ?_, ?_, ?_, ?_, ?_⟩ <;> rw [ht] <;> simp

/-- Claim C10: tokenized-mode commit with an empty assistant message. The
async updater returns before tokenizing and before any put, so the
persisted (payload, turn) state is unchanged; consequently, against the
unchanged stored turn t, a next request passes validation exactly when it
declares t + 1 again, i.e. it must reuse the same turn value T = t + 1 that
the current request used. -/
theorem c10_empty_assistant (env : ServerEnv) (p : String) (tk : List Int)
    (rm : List RawMessage) (T : Int) (s : CtxState) (pa : Option Nat) :
    asyncBody env "tokenized" p "" tk rm T = [] ∧
    Ev.tokenizeCall ∉ asyncUpdater env "tokenized" p "" tk rm T pa ∧
    (∀ pl t, Ev.putTok pl t ∉ asyncUpdater env "tokenized" p "" tk rm T pa) ∧
    (∀ pl t, Ev.putRaw pl t ∉ asyncUpdater env "tokenized" p "" tk rm T pa) ∧
    applyEvs env s (asyncUpdater env "tokenized" p "" tk rm T pa) = s ∧
    (∀ (q : List Int) (t T' : Int), T = t + 1 →
      ((∃ pl st r, turnValidate (fun _ => ReadResult.ok (some q) t)
          ([] : List Int) T' = .accepted pl st r) ↔ T' = T)) := by
  have hbody : asyncBody env "tokenized" p "" tk rm T = [] := by
    simp [asyncBody]
  have hup : asyncUpdater env "tokenized" p "" tk rm T pa = [.lockRelease] := by
    unfold asyncUpdater
    rw [hbody]
    rcases pa with _ | k <;> simp
  refine ⟨hbody, ?_, ?_, ?_, ?_, ?_⟩
  · rw [hup]; simp
  · intro pl t; rw [hup]; simp
  · intro pl t; rw [hup]; simp
  · rw [hup]; simp [applyEvs, applyEv]
  · intro q t T' hT
    constructor
    · rintro ⟨pl, st, r, hacc⟩
      have := tvGo_accept_sound (fun _ => ReadResult.ok (some q) t) [] T'
        maxTurnRetries 0 pl st r hacc
      rcases this with ⟨_, _, hpt, hTeq, _⟩
      have hst : st = t := by
        have : (pl, st) = (q, t) := hpt
        exact (Prod.mk.injEq _ _ _ _ ▸ this).2
      omega
    · intro hT'
      have := tvGo_accept_exists (fun _ => ReadResult.ok (some q) t) [] T'
        maxTurnRetries 0 ⟨0, Nat.zero_le _, by simp [normTurn, resolveRead]; omega⟩
      exact this

/-! Concrete environments used by the closed instances below. -/

/-- Happy-path environment: session creation succeeds, both stores hold an
empty payload at turn 0, the inference call returns the content "Hello",
tokenization returns [5], and both store writes succeed. -/
def envA : ServerEnv :=
  { createSessionOk := true
    rawReads := fun _ => .ok (some []) 0
    tokReads := fun _ => .ok (some []) 0
    llama := .ok (some "Hello")
    tokenize := .ok [5]
    putRawOk := true
    putTokOk := true }

/-- Environment whose every context read fails with a non-NotFound storage
error. -/
def envErr : ServerEnv :=
  { envA with
    rawReads := fun _ => .errOther
    tokReads := fun _ => .errOther }

/-- Environment whose tokenize call fails. -/
def envTokFail : ServerEnv :=
  { envA with tokenize := .error () }

/-- Boolean discriminator for history-collaborator appends. -/
def notHistAppend : Ev → Bool
  | .histAppend _ _ => false
  | _ => true

/-- Bootstrap environment in which the keygroup exists, every permission
grant reports already-exists, and both known nodes are already replicas. -/
def fredEnvIdem : FredEnv :=
  { getKeygroupInfo := .ok ⟨[⟨"n1", "host1"⟩, ⟨"n2", "host2"⟩]⟩
    createKeygroup := .error ⟨.alreadyExists, "keygroup exists"⟩
    refreshInfo := .ok ⟨[⟨"n1", "host1"⟩, ⟨"n2", "host2"⟩]⟩
    addUser := fun _ => .error ⟨.alreadyExists, "permission already granted"⟩
    getAllReplica := .ok [⟨"n1", "host1"⟩, ⟨"n2", "host2"⟩]
    addReplica := fun _ => .error ⟨.alreadyExists, "already a replica"⟩ }

/-- Bootstrap environment in which the existence check fails outright. -/
def fredEnvDown : FredEnv :=
  { fredEnvIdem with getKeygroupInfo := .error ⟨.otherCode, "backend unavailable"⟩ }

/-- Bootstrap environment in which the keygroup exists with one replica and
adding the second node as a replica fails with a non-AlreadyExists
error. -/
def fredEnvCex : FredEnv :=
  { getKeygroupInfo := .ok ⟨[⟨"n1", "host1"⟩]⟩
    createKeygroup := .ok ()
    refreshInfo := .ok ⟨[⟨"n1", "host1"⟩]⟩
    addUser := fun _ => .ok ()
    getAllReplica := .ok [⟨"n1", "host1"⟩, ⟨"n2", "host2"⟩]
    addReplica := fun _ => .error ⟨.otherCode, "replica node unreachable"⟩ }

/-! Closed instances: counterexamples to the claims the code refutes, and
witnesses instantiating the conditional theorems. -/

/-- Witness for C1: a raw request at turn 0 is rejected before any store
read with the lock released, and a tokenized request at turn 9 against a
store at turn 0 exhausts all six read attempts and is rejected with a
conflict. -/
theorem c1_turn_validator_witness :
    handle ⟨"raw", "s0", "u", 0, "Hi", "m"⟩ envA none =
      preEvents ⟨"raw", "s0", "u", 0, "Hi", "m"⟩ ++ [.respond 400, .lockRelease] ∧
    handle ⟨"tokenized", "s0", "u", 9, "Hi", "m"⟩ envA none =
      preEvents ⟨"tokenized", "s0", "u", 9, "Hi", "m"⟩ ++
        (List.range (maxTurnRetries + 1)).map Ev.ctxRead ++
        [.respond 409, .lockRelease] := by
  constructor
  · exact ((c1_turn_validator ⟨"raw", "s0", "u", 0, "Hi", "m"⟩ envA none
      (fun hx => absurd hx (by decide)) (Or.inl rfl)).1 (by decide)).1
  · exact ((c1_turn_validator ⟨"tokenized", "s0", "u", 9, "Hi", "m"⟩ envA none
      (fun hx => absurd hx (by decide)) (Or.inr rfl)).2.2.2.2.2
      (by decide) (fun i _ => by simp [envA, normTurn, resolveRead])
      (fun i _ => by simp [envA, normTurn, resolveRead])).1

/-- Counterexample for C2: the full trace of a successful fresh raw-mode
request at turn 1 contains the context-store put of the two-entry payload
and the turn advance, but no append of any message to the history
collaborator: in this iteration the async updater never calls
AddMessage. -/
theorem c2_counterexample :
    handle ⟨"raw", "s1", "u", 1, "Hi", "m"⟩ envA none =
      [.lockAcquire, .ctxRead 0, .llamaCall, .scheduleAsync, .respond 200,
       .putRaw [⟨"user", "Hi"⟩, ⟨"assistant", "Hello"⟩] 1, .advanceTurn,
       .lockRelease] ∧
    (handle ⟨"raw", "s1", "u", 1, "Hi", "m"⟩ envA none).all notHistAppend = true := by
  decide

/-- Witness for C2: the amended raw commit at concrete inputs. -/
theorem c2_raw_commit_witness :
    asyncBody envA "raw" "Hi" "Yo" [] [] 1 =
      [.putRaw [⟨"user", "Hi"⟩, ⟨"assistant", "Yo"⟩] 1, .advanceTurn] ∧
    (applyEvs envA ⟨none, none⟩ (asyncUpdater envA "raw" "Hi" "Yo" [] [] 1 none)).raw =
      some ([⟨"user", "Hi"⟩, ⟨"assistant", "Yo"⟩], 1) := by
  have h := c2_raw_commit envA "Hi" "Yo" [] [] 1 ⟨none, none⟩ (by decide) (by decide)
  exact ⟨by simpa using h.1, h.2.2.1 rfl rfl⟩

/-- Counterexample for C3: a client-side request does take the per-session
lock and holds it across the inference call, releasing it only afterwards,
so concurrent client-side requests for the same session are serialized by
the lock. -/
theorem c3_counterexample :
    handle ⟨"client-side", "s1", "u", 1, "Hi", "m"⟩ envA none =
      [.lockAcquire, .llamaCall, .lockRelease, .respond 200] ∧
    Ev.lockAcquire ∈ handle ⟨"client-side", "s1", "u", 1, "Hi", "m"⟩ envA none := by
  decide

/-- Witness for C3: the amended client-side frame property at a concrete
request. -/
theorem c3_client_side_frame_witness :
    handle ⟨"client-side", "s2", "u", 2, "Hi", "m"⟩ envA none =
      [.lockAcquire, .llamaCall, .lockRelease, .respond 200] :=
  (c3_client_side_frame ⟨"client-side", "s2", "u", 2, "Hi", "m"⟩ envA none
    rfl).2.2.2.2.2.2.2 (by decide) (by decide) (some "Hello") rfl

/-- Counterexample for C4: with every context read failing with a
non-NotFound storage error, a tokenized request at turn 1 is not rejected
with a server error; it proceeds to the inference call and commits as a
fresh session. -/
theorem c4_counterexample :
    handle ⟨"tokenized", "s1", "u", 1, "Hi", "m"⟩ envErr none =
      [.lockAcquire, .ctxRead 0, .llamaCall, .scheduleAsync, .respond 200,
       .tokenizeCall, .putTok [5] 1, .lockRelease] ∧
    Ev.llamaCall ∈ handle ⟨"tokenized", "s1", "u", 1, "Hi", "m"⟩ envErr none ∧
    Ev.respond 500 ∉ handle ⟨"tokenized", "s1", "u", 1, "Hi", "m"⟩ envErr none := by
  decide

/-- Witness for C4: the amended read-error behaviour at a concrete raw-mode
and a concrete tokenized-mode request. -/
theorem c4_read_error_witness :
    turnValidate envErr.rawReads ([] : List RawMessage) (1 : Int) = .accepted [] 0 0 ∧
    turnValidate envErr.tokReads ([] : List Int) (1 : Int) = .accepted [] 0 0 ∧
    Ev.llamaCall ∈ handle ⟨"raw", "s1", "u", 1, "Hi", "m"⟩ envErr none ∧
    Ev.llamaCall ∈ handle ⟨"tokenized", "s1", "u", 1, "Hi", "m"⟩ envErr none := by
  have hr := c4_read_error_fresh_start ([] : List Int)
    ⟨"raw", "s1", "u", 1, "Hi", "m"⟩ envErr none (some "Hello")
    (fun hx => absurd hx (by decide)) (Or.inl rfl) rfl (fun _ => rfl)
    (fun _ => rfl) rfl
  have ht := c4_read_error_fresh_start ([] : List Int)
    ⟨"tokenized", "s1", "u", 1, "Hi", "m"⟩ envErr none (some "Hello")
    (fun hx => absurd hx (by decide)) (Or.inr rfl) rfl (fun _ => rfl)
    (fun _ => rfl) rfl
  exact ⟨hr.2.2.1, hr.2.2.2.1, hr.2.2.2.2.1, ht.2.2.2.2.1⟩

/-- Witness for C5: tokenize failure at concrete inputs leaves the stored
state untouched. -/
theorem c5_tokenize_failure_witness :
    asyncBody envTokFail "tokenized" "Hi" "Yo" [1, 2] [] 3 = [.tokenizeCall] ∧
    applyEvs envTokFail ⟨some ([1, 2], 2), none⟩
      (asyncUpdater envTokFail "tokenized" "Hi" "Yo" [1, 2] [] 3 none) =
      ⟨some ([1, 2], 2), none⟩ := by
  have h := c5_tokenize_failure_no_put envTokFail "Hi" "Yo" [1, 2] [] 3
    ⟨some ([1, 2], 2), none⟩ none (by decide) rfl
  exact ⟨h.1, h.2.2.2⟩

/-- Counterexample for C7: a replica-addition failure that is not
AlreadyExists is swallowed — the bootstrap still returns success even
though the AddReplica call for node n2 was attempted and its outcome in
this environment is a non-AlreadyExists error. -/
theorem c7_counterexample :
    (initializeKeygroup fredEnvCex "host1").1 = .ok () ∧
    FEv.calledAddReplica "n2" ∈ (initializeKeygroup fredEnvCex "host1").2 ∧
    fredEnvCex.addReplica "n2" = .error ⟨.otherCode, "replica node unreachable"⟩ := by
  refine ⟨rfl, ?_, rfl⟩
  decide

/-- Witness for C7: idempotent bootstrap against an existing, fully
replicated keygroup succeeds, and an existence-check failure is
propagated. -/
theorem c7_bootstrap_witness :
    (initializeKeygroup fredEnvIdem "host1").1 = .ok () ∧
    (initializeKeygroup fredEnvDown "host1").1 =
      .error ⟨.otherCode, "backend unavailable"⟩ := by
  constructor
  · exact (c7_bootstrap fredEnvIdem "host1").1 ⟨[⟨"n1", "host1"⟩, ⟨"n2", "host2"⟩]⟩ rfl
  · exact (c7_bootstrap fredEnvDown "host1").2.1 ⟨.otherCode, "backend unavailable"⟩
      rfl (by decide)

/-- Witness for C9: a body carrying a context key is rejected with a bare
400 response. -/
theorem c9_context_rejected_witness :
    handleHTTP [("mode", Js.str "raw"), ("context", Js.arr [])] envA none =
      [.respond 400] :=
  (c9_context_rejected [("mode", Js.str "raw"), ("context", Js.arr [])] envA none
    rfl).2.1

/-- Witness for C10: an empty assistant reply at concrete inputs leaves the
state unchanged, and a follow-up request against the unchanged store at
turn 1 passes validation exactly for declared turn 2 again. -/
theorem c10_empty_assistant_witness :
    asyncBody envA "tokenized" "Hi" "" [1] [] 2 = [] ∧
    applyEvs envA ⟨some ([1], 1), none⟩
      (asyncUpdater envA "tokenized" "Hi" "" [1] [] 2 none) =
      ⟨some ([1], 1), none⟩ ∧
    ((∃ pl st r, turnValidate (fun _ => ReadResult.ok (some [1]) (1 : Int))
        ([] : List Int) 2 = .accepted pl st r) ↔ (2 : Int) = 2) := by
  have h := c10_empty_assistant envA "Hi" [1] [] 2 ⟨some ([1], 1), none⟩ none
  exact ⟨h.1, h.2.2.2.2.1, h.2.2.2.2.2 [1] 1 2 (by decide)⟩

end LCM
